import Mathlib

/-!
Verification of the trusted checksum registry of
ModeSevenIndustrialSolutions/1password-secrets-action
(internal/cli/versions.go), as a shallow embedding in Lean 4.

Modelling conventions:
* Go strings are `List Char` (`GoStr`).
* Go maps `map[string]T` are association lists `List (GoStr × T)`
  with `List.lookup` semantics; a `nil` Go map is identified with the
  empty map (they are indistinguishable for reads, and the one write in
  `ExtendDB` allocates a map first).
* Functions returning `(T, error)` become `Except GoStr T` with the error
  modelled by its message string; `error`-only results become
  `Option ValidationError` (`none` = `nil`).
* The filesystem is an explicit value `FS` mapping paths to byte contents;
  functions that touch the disk take and return it.
* `time.Now().UTC().Format(time.RFC3339)`, evaluated once per process when
  the package variable `bundledVersionsYAML` is initialised, is modelled as
  an explicit timestamp-string parameter `t`.
-/

set_option maxRecDepth 4096

deriving instance DecidableEq for Except

namespace OPAction

/-- Go strings, modelled as lists of characters. -/
abbrev GoStr : Type := List Char

/-- The characters Go's strings.TrimSpace trims (unicode.IsSpace over the
Latin-1 range; the repository only ever trims ASCII content). -/
def goIsSpace (c : Char) : Bool :=
  c = ' ' || c = '\t' || c = '\n' || c = '\x0b' || c = '\x0c' || c = '\r' ||
    c = '\u0085' || c = '\u00A0'

/-- Go strings.TrimSpace: drop leading and trailing white space. -/
def goTrimSpace (s : GoStr) : GoStr :=
  ((s.dropWhile goIsSpace).reverse.dropWhile goIsSpace).reverse

/-- Go strings.TrimPrefix: drop `pre` from the front of `s` when it is a
prefix of `s`, otherwise return `s` unchanged. -/
def goTrimPrefix (s pre : GoStr) : GoStr :=
  if pre.isPrefixOf s then s.drop pre.length else s

/-- Go strings.Join with separator `sep`. -/
def goJoin (xs : List GoStr) (sep : GoStr) : GoStr :=
  (xs.intersperse sep).flatten

/-- fmt %d on the integer schema version. -/
def intRepr (n : Int) : GoStr := (toString n).toList

/-- The character class \d of Go's regexp package (ASCII digits only). -/
def isDigitChar (c : Char) : Bool :=
  decide (c ∈ ['0', '1', '2', '3', '4', '5', '6', '7', '8', '9'])

/-- The character class [a-f0-9] of the hexSHA256 pattern. -/
def isHexChar (c : Char) : Bool :=
  decide (c ∈ ['a', 'b', 'c', 'd', 'e', 'f',
               '0', '1', '2', '3', '4', '5', '6', '7', '8', '9'])

/-- One-or-more digits at the front of the string (the \d+ of the semver
pattern): returns the remainder after the maximal leading digit run, or
`none` when the string does not start with a digit. -/
def chompDigits : GoStr → Option GoStr
  | [] => none
  | c :: rest =>
      if isDigitChar c then some (rest.dropWhile isDigitChar) else none

/-- The anchored regular expression `^\d+\.\d+\.\d+$` (the package variable
`semverLike` of versions.go), as a decidable matcher. -/
def semverLike (s : GoStr) : Bool :=
  match chompDigits s with
  | some ('.' :: r1) =>
      (match chompDigits r1 with
       | some ('.' :: r2) =>
           (match chompDigits r2 with
            | some [] => true
            | _ => false)
       | _ => false)
  | _ => false

/-- The anchored regular expression `^[a-f0-9]{64}$` (the package variable
`hexSHA256` of versions.go). -/
def hexSHA256 (s : GoStr) : Bool :=
  s.length == 64 && s.all isHexChar

/-- SchemaVersion is the current schema for the YAML database. -/
def SchemaVersion : Int := 1

/-- Architecture and OS constants of versions.go. -/
def amd64Architecture : GoStr := "amd64".toList

/-- Architecture constant "arm64". -/
def arm64Architecture : GoStr := "arm64".toList

/-- OS constant "linux". -/
def linuxOS : GoStr := "linux".toList

/-- OS constant "darwin". -/
def darwinOS : GoStr := "darwin".toList

/-- OS constant "windows". -/
def windowsOS : GoStr := "windows".toList

/-- PlatformChecksums holds per-platform SHA256 checksums for the CLI binary
of a given version. Absent YAML fields are the empty string, as in Go. -/
structure PlatformChecksums where
  LinuxAMD64 : GoStr := []
  LinuxARM64 : GoStr := []
  DarwinAMD64 : GoStr := []
  DarwinARM64 : GoStr := []
  WindowsAMD64 : GoStr := []
deriving DecidableEq

/-- VersionsDB defines the schema of the YAML versions database. The Go map
`Versions` is modelled as an association list. -/
structure VersionsDB where
  SchemaVersion : Int
  GeneratedAt : GoStr := []
  Versions : List (GoStr × PlatformChecksums)
deriving DecidableEq

/-- ValidationError aggregates schema validation errors. -/
structure ValidationError where
  Errors : List GoStr
deriving DecidableEq

/-- The Error() method of *ValidationError. -/
def ValidationError.message (v : ValidationError) : GoStr :=
  if v.Errors.isEmpty then "schema validation failed".toList
  else "schema validation failed: ".toList ++ goJoin v.Errors "; ".toList

/-- NormalizeVersion strips a leading 'v' if present, e.g., "v2.31.1" ->
"2.31.1". -/
def NormalizeVersion (v : GoStr) : GoStr :=
  goTrimPrefix (goTrimSpace v) ['v']

/-- The message for an unexpected schema_version. -/
def schemaVersionMsg (n : Int) : GoStr :=
  "unexpected schema_version=".toList ++ intRepr n ++
    " (expected ".toList ++ intRepr SchemaVersion ++ ")".toList

/-- The message for a version key that does not normalize to a semver. -/
def invalidKeyMsg (ver : GoStr) : GoStr :=
  "invalid version key '".toList ++ ver ++
    "' (expected semantic version like 2.31.1)".toList

/-- The message for a non-empty checksum that is not 64 lowercase hex chars. -/
def invalidChecksumMsg (ver nm : GoStr) : GoStr :=
  "version ".toList ++ ver ++ ": invalid ".toList ++ nm ++
    " checksum (must be 64 hex chars)".toList

/-- The message for an entry with no populated checksum. -/
def noChecksumsMsg (ver : GoStr) : GoStr :=
  "version ".toList ++ ver ++ ": no platform checksums provided".toList

/-- The message for the empty versions map. -/
def emptyVersionsMsg : GoStr := "versions map is empty".toList

/-- The checkPairs slice built inside Validate: platform-key name paired with
the checksum field value, in source order. -/
def checkPairs (pcs : PlatformChecksums) : List (GoStr × GoStr) :=
  [("linux_amd64".toList, pcs.LinuxAMD64),
   ("linux_arm64".toList, pcs.LinuxARM64),
   ("darwin_amd64".toList, pcs.DarwinAMD64),
   ("darwin_arm64".toList, pcs.DarwinARM64),
   ("windows_amd64".toList, pcs.WindowsAMD64)]

/-- The errors Validate accumulates for one entry of the versions map: the
key-shape error, then one error per populated-but-malformed checksum in
checkPairs order, then the no-populated-checksum error. This mirrors the
append order of the loop body in Validate. -/
def entryErrs (ver : GoStr) (pcs : PlatformChecksums) : List GoStr :=
  (if semverLike (NormalizeVersion ver) then [] else [invalidKeyMsg ver]) ++
  ((checkPairs pcs).filter
      (fun p => !(goTrimSpace p.2).isEmpty && !hexSHA256 p.2)).map
    (fun p => invalidChecksumMsg ver p.1) ++
  (if (checkPairs pcs).all (fun p => (goTrimSpace p.2).isEmpty)
   then [noChecksumsMsg ver] else [])

/-- The full list of errors Validate accumulates, in iteration order of the
modelled map. -/
def validateErrs (db : VersionsDB) : List GoStr :=
  (if db.SchemaVersion ≠ SchemaVersion
   then [schemaVersionMsg db.SchemaVersion] else []) ++
  (if db.Versions.isEmpty then [emptyVersionsMsg]
   else (db.Versions.map (fun e => entryErrs e.1 e.2)).flatten)

/-- Validate performs schema validation for the versions DB; `none` models a
nil error. -/
def VersionsDB.Validate (db : VersionsDB) : Option ValidationError :=
  if (validateErrs db).isEmpty then none else some ⟨validateErrs db⟩

/-- The "unsupported platform" error message of ComputePlatformKey, carrying
the raw identifiers. -/
def unsupportedPlatformMsg (goos goarch : GoStr) : GoStr :=
  "unsupported platform: ".toList ++ goos ++ "_".toList ++ goarch

/-- ComputePlatformKey returns the platform key used in the versions DB given
GOOS/GOARCH; the nested Go switch falls through to the shared error return. -/
def ComputePlatformKey (goos goarch : GoStr) : Except GoStr GoStr :=
  if goos = linuxOS then
    if goarch = amd64Architecture then .ok "linux_amd64".toList
    else if goarch = arm64Architecture then .ok "linux_arm64".toList
    else .error (unsupportedPlatformMsg goos goarch)
  else if goos = darwinOS then
    if goarch = amd64Architecture then .ok "darwin_amd64".toList
    else if goarch = arm64Architecture then .ok "darwin_arm64".toList
    else .error (unsupportedPlatformMsg goos goarch)
  else if goos = windowsOS then
    if goarch = amd64Architecture then .ok "windows_amd64".toList
    else .error (unsupportedPlatformMsg goos goarch)
  else .error (unsupportedPlatformMsg goos goarch)

/-- GetExpectedSHA returns the expected SHA256 for a given version and
platform key. The nil-pointer receiver of the Go method is the `none` case. -/
def GetExpectedSHA (db : Option VersionsDB) (version platformKey : GoStr) :
    GoStr × Bool :=
  match db with
  | none => ([], false)
  | some db =>
    let v := NormalizeVersion version
    match db.Versions.lookup v with
    | none => ([], false)
    | some pcs =>
      if platformKey = "linux_amd64".toList then
        (pcs.LinuxAMD64, !pcs.LinuxAMD64.isEmpty)
      else if platformKey = "linux_arm64".toList then
        (pcs.LinuxARM64, !pcs.LinuxARM64.isEmpty)
      else if platformKey = "darwin_amd64".toList then
        (pcs.DarwinAMD64, !pcs.DarwinAMD64.isEmpty)
      else if platformKey = "darwin_arm64".toList then
        (pcs.DarwinARM64, !pcs.DarwinARM64.isEmpty)
      else if platformKey = "windows_amd64".toList then
        (pcs.WindowsAMD64, !pcs.WindowsAMD64.isEmpty)
      else ([], false)

/-- Assignment `m[k] = v` on a Go map modelled as an association list: the
entry for `k` is replaced, every other key keeps its binding. -/
def mapInsert {β : Type} (k : GoStr) (v : β) (m : List (GoStr × β)) :
    List (GoStr × β) :=
  (k, v) :: m.filter (fun e => e.1 != k)

/-- The single-entry scratch DB built inside ExtendDB for isolated
validation of the new entry. -/
def extendScratch (db : VersionsDB) (version : GoStr)
    (checksums : PlatformChecksums) : VersionsDB :=
  { SchemaVersion := db.SchemaVersion,
    Versions := [(NormalizeVersion version, checksums)] }

/-- ExtendDB allows programmatic extension of an already loaded DB with a new
version entry, validating the added checksums against a single-entry scratch
DB and merging only on success. The Go method mutates its receiver; the
model returns the updated DB in the success case. -/
def VersionsDB.ExtendDB (db : VersionsDB) (version : GoStr)
    (checksums : PlatformChecksums) : Except ValidationError VersionsDB :=
  let nv := NormalizeVersion version
  match (extendScratch db version checksums).Validate with
  | some e => .error e
  | none => .ok { db with Versions := mapInsert nv checksums db.Versions }

/-- The filesystem, modelled as a map from paths to file contents.
Directories and permission bits are not tracked: os.MkdirAll is modelled as
always succeeding, and os.Stat on a path reports existence in this map. -/
structure FS where
  files : List (GoStr × GoStr)
deriving DecidableEq

/-- Existence-and-content query on the modelled filesystem (os.Stat plus
os.ReadFile). -/
def FS.lookup (fs : FS) (path : GoStr) : Option GoStr :=
  fs.files.lookup path

/-- os.WriteFile on the modelled filesystem. -/
def FS.write (fs : FS) (path content : GoStr) : FS :=
  ⟨mapInsert path content fs.files⟩

/-- The process environment and host facts that path resolution reads:
runtime.GOOS, the APPDATA and XDG_CONFIG_HOME variables (empty when unset)
and the result of os.UserHomeDir. -/
structure Env where
  goos : GoStr
  appdata : GoStr
  xdgConfigHome : GoStr
  userHomeDir : Except GoStr GoStr

/-- The path separator of filepath.Join, modelled as '/' on every platform
(no claim depends on the Windows separator). -/
def pathSep : Char := '/'

/-- filepath.Join of two non-empty clean components. -/
def filepathJoin (a b : GoStr) : GoStr := a ++ pathSep :: b

/-- Default subdir under the config root. -/
def defaultSubdir : GoStr :=
  filepathJoin "1password-secrets".toList "action".toList

/-- Default file name for the versions database. -/
def defaultVersionsFilename : GoStr := "1password-cli-versions.yaml".toList

/-- DefaultConfigDir determines the OS-appropriate base configuration
directory. -/
def DefaultConfigDir (env : Env) : Except GoStr GoStr :=
  if env.goos = windowsOS then
    if !(goTrimSpace env.appdata).isEmpty then .ok env.appdata
    else
      match env.userHomeDir with
      | .ok home =>
          .ok (filepathJoin home (filepathJoin "AppData".toList "Roaming".toList))
      | .error _ =>
          .error "unable to determine APPDATA or user home directory".toList
  else
    if !(goTrimSpace env.xdgConfigHome).isEmpty then .ok env.xdgConfigHome
    else
      match env.userHomeDir with
      | .ok home => .ok (filepathJoin home ".config".toList)
      | .error _ =>
          .error "unable to determine config directory (XDG_CONFIG_HOME or home)".toList

/-- DefaultDBPath returns the default path to the versions database. -/
def DefaultDBPath (env : Env) : Except GoStr GoStr :=
  match DefaultConfigDir env with
  | .error e => .error e
  | .ok cfgRoot =>
      .ok (filepathJoin cfgRoot (filepathJoin defaultSubdir defaultVersionsFilename))

/-- fmt %q of a string that needs no escaping (an RFC3339 timestamp never
does). -/
def goQuote (s : GoStr) : GoStr := '"' :: s ++ ['"']

/-- The five bundled digests for 1Password CLI v2.31.1. -/
def bundledLinuxAMD64 : GoStr :=
  "0fd8da9c6b6301781f50ef57cebbfd7d42d072777bcb4649ef5b6d360629b876".toList

/-- Bundled digest for linux_arm64. -/
def bundledLinuxARM64 : GoStr :=
  "47bcd4dbeacefcd01ae8c913e61721ae71ac4f6a0b9150f48467ff719d494ff7".toList

/-- Bundled digest for darwin_amd64. -/
def bundledDarwinAMD64 : GoStr :=
  "019f37e33a6d4f7824cda14eee5e24c2947d58d94ed7dd3b3fc3cbcd644647df".toList

/-- Bundled digest for darwin_arm64. -/
def bundledDarwinARM64 : GoStr :=
  "71d38ddee25d34a9159b81d8c16844c3869defd7cc1563cc8f216a20439ceba4".toList

/-- Bundled digest for windows_amd64. -/
def bundledWindowsAMD64 : GoStr :=
  "9e54520aa136ecd6bc7082ec719b68f00bd23cb575c6e787d62f34cc44895bbb".toList

/-- bundledVersionsYAML: the package-level variable holding the default,
built-in YAML database. In Go it is computed once per process by
fmt.Sprintf over the template, substituting SchemaVersion for %d and the
RFC3339 rendering of time.Now() for %q; the timestamp string is the
parameter `t` here. -/
def bundledVersionsYAML (t : GoStr) : GoStr :=
  goTrimSpace
    ("\nschema_version: ".toList ++ intRepr SchemaVersion ++
     "\ngenerated_at: ".toList ++ goQuote t ++
     "\nversions:\n  \"2.31.1\":\n    linux_amd64: \"".toList ++
     bundledLinuxAMD64 ++
     "\"\n    linux_arm64: \"".toList ++ bundledLinuxARM64 ++
     "\"\n    darwin_amd64: \"".toList ++ bundledDarwinAMD64 ++
     "\"\n    darwin_arm64: \"".toList ++ bundledDarwinARM64 ++
     "\"\n    windows_amd64: \"".toList ++ bundledWindowsAMD64 ++
     "\"\n".toList)

/-- The VersionsDB value that yaml.Unmarshal produces from
`bundledVersionsYAML t`: the fixed bundled document always parses, to this
value (the unreachable invalid-YAML branch of WriteBundledDBIfMissing is
not modelled). -/
def bundledDB (t : GoStr) : VersionsDB :=
  { SchemaVersion := 1,
    GeneratedAt := t,
    Versions :=
      [("2.31.1".toList,
        { LinuxAMD64 := bundledLinuxAMD64,
          LinuxARM64 := bundledLinuxARM64,
          DarwinAMD64 := bundledDarwinAMD64,
          DarwinARM64 := bundledDarwinARM64,
          WindowsAMD64 := bundledWindowsAMD64 })] }

/-- WriteBundledDBIfMissing writes the bundled DB to the default path if it
does not exist: a no-op when the file is present, otherwise it validates
the bundled document before writing it. Directory creation always succeeds
in the filesystem model, and stat can only report presence or absence. -/
def WriteBundledDBIfMissing (env : Env) (t : GoStr) (fs : FS) :
    Except GoStr FS :=
  match DefaultDBPath env with
  | .error e => .error e
  | .ok path =>
    match fs.lookup path with
    | some _ => .ok fs
    | none =>
      match (bundledDB t).Validate with
      | some e =>
          .error ("bundled versions DB failed validation: ".toList ++ e.message)
      | none => .ok (fs.write path (bundledVersionsYAML t))

/-- The os.ReadFile error message for a missing file, as wrapped by Go. -/
def readFileErrCause (path : GoStr) : GoStr :=
  "open ".toList ++ path ++ ": no such file or directory".toList

/-- The wrapped read-failure message of loadDBFromPath. -/
def readErrMsg (path : GoStr) : GoStr :=
  "failed to read versions DB at ".toList ++ path ++ ": ".toList ++
    readFileErrCause path

/-- The wrapped parse-failure message of loadDBFromPath. -/
def parseErrMsg (path cause : GoStr) : GoStr :=
  "failed to parse YAML versions DB at ".toList ++ path ++ ": ".toList ++ cause

/-- loadDBFromPath reads, parses and validates the versions DB from a file
path. The yaml.v3 library is abstracted as the parameter `unmarshal`
(content to parsed document or error message); errors are modelled by their
message strings, so the validation branch returns the aggregate
ValidationError message unmodified, exactly as the Go code returns the
*ValidationError itself. -/
def loadDBFromPath (unmarshal : GoStr → Except GoStr VersionsDB) (fs : FS)
    (path : GoStr) : Except GoStr VersionsDB :=
  match fs.lookup path with
  | none => .error (readErrMsg path)
  | some content =>
    match unmarshal content with
    | .error cause => .error (parseErrMsg path cause)
    | .ok db =>
      match db.Validate with
      | some e => .error e.message
      | none => .ok db

/-- The five platform keys recognized by GetExpectedSHA. -/
def platformKeys : List GoStr :=
  ["linux_amd64".toList, "linux_arm64".toList, "darwin_amd64".toList,
   "darwin_arm64".toList, "windows_amd64".toList]

/-- A registry whose single entry is authored under the v-prefixed key
spelling, with one valid checksum. -/
def vAuthoredDB : VersionsDB :=
  { SchemaVersion := 1,
    Versions := [("v2.31.1".toList, { LinuxAMD64 := bundledLinuxAMD64 })] }

/-- A document with four violations: wrong schema_version, a malformed
version key, a malformed non-empty checksum, and an entry with zero
populated checksums. -/
def badDB : VersionsDB :=
  { SchemaVersion := 2,
    Versions := [("2.31".toList, { LinuxAMD64 := "zz".toList }),
                 ("9.9.9".toList, {})] }

/-- A small valid registry used for the extension evaluations. -/
def sampleDB : VersionsDB :=
  { SchemaVersion := 1,
    Versions := [("1.0.0".toList, { LinuxAMD64 := bundledLinuxAMD64 })] }

/-- A checksum record whose one populated field is valid. -/
def goodCS : PlatformChecksums := { LinuxAMD64 := bundledLinuxARM64 }

/-- A checksum record whose one populated field is not 64 hex chars. -/
def badCS : PlatformChecksums := { LinuxAMD64 := "not-hex".toList }

/-- A Unix-like host environment with XDG_CONFIG_HOME set. -/
def env0 : Env :=
  { goos := linuxOS, appdata := [], xdgConfigHome := "/cfg".toList,
    userHomeDir := .ok "/home/u".toList }

/-- The default DB path that env0 resolves to. -/
def path0 : GoStr :=
  "/cfg/1password-secrets/action/1password-cli-versions.yaml".toList

/-- The empty filesystem. -/
def fsEmpty : FS := ⟨[]⟩

/-- Two concrete process-initialisation timestamps one second apart. -/
def ts1 : GoStr := "2025-07-28T00:00:00Z".toList

/-- The later of the two concrete timestamps. -/
def ts2 : GoStr := "2025-07-28T00:00:01Z".toList

/-- A document whose only violation is the wrong schema_version (its
versions map is empty too, giving exactly two violations). -/
def badSchemaDB : VersionsDB := { SchemaVersion := 2, Versions := [] }

/-- A concrete registry path for the load evaluations. -/
def pathSample : GoStr := "/zz/config/1password-cli-versions.yaml".toList

/-- A filesystem holding a document at pathSample. -/
def fsSample : FS := ⟨[(pathSample, "schema_version: 2".toList)]⟩

/-- A parse function standing for yaml.v3 on a document that parses to
badSchemaDB. -/
def unmarshalSample : GoStr → Except GoStr VersionsDB :=
  fun _ => .ok badSchemaDB

/-- The closed support matrix that ComputePlatformKey accepts. -/
def supportedPairs : List (GoStr × GoStr) :=
  [(linuxOS, amd64Architecture), (linuxOS, arm64Architecture),
   (darwinOS, amd64Architecture), (darwinOS, arm64Architecture),
   (windowsOS, amd64Architecture)]

/-- The filesystem after a first bootstrap on an empty filesystem. -/
def fs1 : FS := fsEmpty.write path0 (bundledVersionsYAML ts1)

/-- The message of the aggregate validation error of badSchemaDB. -/
def validationMsgSample : GoStr :=
  ("schema validation failed: unexpected schema_version=2 (expected 1); " ++
   "versions map is empty").toList

/-- A parse function standing for yaml.v3 on malformed input. -/
def unmarshalFailSample : GoStr → Except GoStr VersionsDB :=
  fun _ => .error "yaml: unmarshal errors".toList

/-- Every ASCII digit is neither trimmed white space nor the letter v. -/
lemma isDigitChar_spec {c : Char} (h : isDigitChar c = true) :
    goIsSpace c = false ∧ c ≠ 'v' := by
  have hm := of_decide_eq_true h
  fin_cases hm <;> exact ⟨by decide, by decide⟩

/-- A successful chompDigits consumed a non-empty all-digit prefix. -/
lemma chompDigits_eq_some {s r : GoStr} (h : chompDigits s = some r) :
    ∃ d, d ≠ [] ∧ (∀ c ∈ d, isDigitChar c = true) ∧ s = d ++ r := by
  match s with
  | [] => simp [chompDigits] at h
  | c :: rest =>
    by_cases hc : isDigitChar c = true
    · refine ⟨c :: rest.takeWhile isDigitChar, by simp, ?_, ?_⟩
      · intro x hx
        rcases List.mem_cons.1 hx with rfl | hx
        · exact hc
        · exact List.mem_takeWhile_imp hx
      · simp only [chompDigits, hc, if_true, Option.some.injEq] at h
        rw [← h]
        simp [List.takeWhile_append_dropWhile]
    · simp [chompDigits, hc] at h

/-- A string matching the semver pattern decomposes into three non-empty
digit runs separated by dots. -/
lemma semverLike_decomp {s : GoStr} (h : semverLike s = true) :
    ∃ d1 d2 d3 : GoStr, d1 ≠ [] ∧ d2 ≠ [] ∧ d3 ≠ [] ∧
      (∀ c ∈ d1, isDigitChar c = true) ∧ (∀ c ∈ d2, isDigitChar c = true) ∧
      (∀ c ∈ d3, isDigitChar c = true) ∧
      s = d1 ++ '.' :: (d2 ++ '.' :: d3) := by
  unfold semverLike at h
  split at h
  case _ r1 heq1 =>
    split at h
    case _ r2 heq2 =>
      split at h
      case _ heq3 =>
        obtain ⟨d1, hd1, ha1, hs1⟩ := chompDigits_eq_some heq1
        obtain ⟨d2, hd2, ha2, hs2⟩ := chompDigits_eq_some heq2
        obtain ⟨d3, hd3, ha3, hs3⟩ := chompDigits_eq_some heq3
        refine ⟨d1, d2, d3, hd1, hd2, hd3, ha1, ha2, ha3, ?_⟩
        rw [hs1, hs2, hs3]
        simp
      case _ => exact absurd h (by simp)
    case _ => exact absurd h (by simp)
  case _ => exact absurd h (by simp)

/-- A semver-shaped string starts and ends with a digit. -/
lemma semverLike_head_last {s : GoStr} (h : semverLike s = true) :
    ∃ x xs y ys, s = x :: xs ∧ s.reverse = y :: ys ∧
      isDigitChar x = true ∧ isDigitChar y = true := by
  obtain ⟨d1, d2, d3, hd1, hd2, hd3, ha1, ha2, ha3, hs⟩ := semverLike_decomp h
  obtain ⟨x, t1, rfl⟩ := List.exists_cons_of_ne_nil hd1
  have hd3r : d3.reverse ≠ [] := by simpa using hd3
  obtain ⟨y, t3, hy⟩ := List.exists_cons_of_ne_nil hd3r
  have hymem : y ∈ d3 := by
    have : y ∈ d3.reverse := by rw [hy]; exact List.mem_cons_self y t3
    simpa using this
  refine ⟨x, t1 ++ '.' :: (d2 ++ '.' :: d3), y,
    t3 ++ ('.' :: d2.reverse ++ '.' :: (t1.reverse ++ [x])), ?_, ?_,
    ha1 x (List.mem_cons_self x t1), ha3 y hymem⟩
  · simpa using hs
  · rw [hs]
    simp [List.reverse_append, hy]

/-- goTrimSpace is the identity on a string whose first and last characters
are not white space. -/
lemma goTrimSpace_id {s : GoStr} {x y : Char} {xs ys : GoStr}
    (hx : s = x :: xs) (hy : s.reverse = y :: ys)
    (hxs : goIsSpace x = false) (hys : goIsSpace y = false) :
    goTrimSpace s = s := by
  have h1 : s.dropWhile goIsSpace = s := by
    rw [hx, List.dropWhile_cons, hxs]
    simp
  unfold goTrimSpace
  rw [h1, hy, List.dropWhile_cons, hys]
  simp [← hy]

/-- On a semver-shaped string, NormalizeVersion is the identity, and it
strips exactly the leading v from the v-prefixed form. -/
lemma normalizeVersion_semver {v : GoStr} (h : semverLike v = true) :
    NormalizeVersion v = v ∧ NormalizeVersion ('v' :: v) = v := by
  obtain ⟨x, xs, y, ys, hx, hy, hdx, hdy⟩ := semverLike_head_last h
  obtain ⟨hxs, hxv⟩ := isDigitChar_spec hdx
  obtain ⟨hys, _⟩ := isDigitChar_spec hdy
  constructor
  · unfold NormalizeVersion
    rw [goTrimSpace_id hx hy hxs hys]
    unfold goTrimPrefix
    rw [hx]
    have : (['v'].isPrefixOf (x :: xs)) = false := by
      simp [List.isPrefixOf]
      intro hvx
      exact absurd hvx.symm hxv
    rw [this]
    simp
  · unfold NormalizeVersion
    have hrev : ('v' :: v).reverse = y :: (ys ++ ['v']) := by
      simp [hy]
    have htr : goTrimSpace ('v' :: v) = 'v' :: v :=
      goTrimSpace_id rfl hrev (by decide) hys
    rw [htr]
    unfold goTrimPrefix
    simp [List.isPrefixOf]

/-- C2: for every registry, platform key and semver-shaped version string v,
GetExpectedSHA answers identically for v and for "v" + v. -/
theorem getExpectedSHA_v_roundtrip (db : Option VersionsDB) (pk v : GoStr)
    (h : semverLike v = true) :
    GetExpectedSHA db v pk = GetExpectedSHA db ('v' :: v) pk := by
  obtain ⟨h1, h2⟩ := normalizeVersion_semver h
  cases db with
  | none => rfl
  | some d => simp only [GetExpectedSHA, h1, h2]

/-- C2 witness: the round trip evaluated at version 2.31.1 of sampleDB. -/
theorem getExpectedSHA_v_roundtrip_witness :
    semverLike "2.31.1".toList = true ∧
    GetExpectedSHA (some sampleDB) "2.31.1".toList "linux_amd64".toList =
      GetExpectedSHA (some sampleDB) ('v' :: "2.31.1".toList) "linux_amd64".toList :=
  ⟨by decide,
   getExpectedSHA_v_roundtrip (some sampleDB) "linux_amd64".toList
     "2.31.1".toList (by decide)⟩

/-- ComputePlatformKey succeeds exactly on the pairs of the support matrix. -/
lemma computePlatformKey_ok_iff (goos goarch : GoStr) :
    (∃ k, ComputePlatformKey goos goarch = Except.ok k) ↔
      (goos, goarch) ∈ supportedPairs := by
  constructor
  · rintro ⟨k, hk⟩
    unfold ComputePlatformKey at hk
    by_cases h1 : goos = linuxOS
    · by_cases h4 : goarch = amd64Architecture
      · subst h1; subst h4; simp [supportedPairs]
      · by_cases h5 : goarch = arm64Architecture
        · subst h1; subst h5; simp [supportedPairs]
        · simp [h1, h4, h5] at hk
    · by_cases h2 : goos = darwinOS
      · by_cases h4 : goarch = amd64Architecture
        · subst h2; subst h4; simp [supportedPairs]
        · by_cases h5 : goarch = arm64Architecture
          · subst h2; subst h5; simp [supportedPairs]
          · simp [h1, h2, h4, h5] at hk
      · by_cases h3 : goos = windowsOS
        · by_cases h4 : goarch = amd64Architecture
          · subst h3; subst h4; simp [supportedPairs]
          · simp [h1, h2, h3, h4, show ¬(windowsOS = linuxOS) from by decide,
              show ¬(windowsOS = darwinOS) from by decide] at hk
        · simp [h1, h2, h3] at hk
  · intro hm
    fin_cases hm <;> exact ⟨_, rfl⟩

/-- Outside the support matrix, ComputePlatformKey returns the unsupported
platform error built from the raw identifiers. -/
lemma computePlatformKey_not_mem {goos goarch : GoStr}
    (h : (goos, goarch) ∉ supportedPairs) :
    ComputePlatformKey goos goarch =
      Except.error (unsupportedPlatformMsg goos goarch) := by
  unfold ComputePlatformKey
  by_cases h1 : goos = linuxOS
  · by_cases h4 : goarch = amd64Architecture
    · exact absurd (by subst h1; subst h4; simp [supportedPairs]) h
    · by_cases h5 : goarch = arm64Architecture
      · exact absurd (by subst h1; subst h5; simp [supportedPairs]) h
      · simp [h1, h4, h5]
  · by_cases h2 : goos = darwinOS
    · by_cases h4 : goarch = amd64Architecture
      · exact absurd (by subst h2; subst h4; simp [supportedPairs]) h
      · by_cases h5 : goarch = arm64Architecture
        · exact absurd (by subst h2; subst h5; simp [supportedPairs]) h
        · simp [h1, h2, h4, h5]
    · by_cases h3 : goos = windowsOS
      · by_cases h4 : goarch = amd64Architecture
        · exact absurd (by subst h3; subst h4; simp [supportedPairs]) h
        · simp [h1, h2, h3, h4, show ¬(windowsOS = linuxOS) from by decide,
            show ¬(windowsOS = darwinOS) from by decide]
      · simp [h1, h2, h3]

/-- C1 (amended): ComputePlatformKey succeeds iff the pair is one of the
five supported pairs; every other pair fails with the unsupported-platform
error carrying the raw identifiers. -/
theorem computePlatformKey_closed_matrix (goos goarch : GoStr) :
    ((∃ k, ComputePlatformKey goos goarch = Except.ok k) ↔
        (goos, goarch) ∈ supportedPairs) ∧
      ((goos, goarch) ∉ supportedPairs →
        ComputePlatformKey goos goarch =
          Except.error (unsupportedPlatformMsg goos goarch)) :=
  ⟨computePlatformKey_ok_iff goos goarch, fun h => computePlatformKey_not_mem h⟩

/-- C1 witness: windows/arm64 is outside the matrix and yields the error
with both raw identifiers. -/
theorem computePlatformKey_closed_matrix_witness :
    ("windows".toList, "arm64".toList) ∉ supportedPairs ∧
      ComputePlatformKey "windows".toList "arm64".toList =
        Except.error (unsupportedPlatformMsg "windows".toList "arm64".toList) ∧
      unsupportedPlatformMsg "windows".toList "arm64".toList =
        "unsupported platform: windows_arm64".toList :=
  ⟨by decide,
   (computePlatformKey_closed_matrix "windows".toList "arm64".toList).2 (by decide),
   by decide⟩

/-- C1 as stated is false: no duplicate-free list of six (os, arch) pairs is
exactly the success set of ComputePlatformKey, because the support matrix
has five pairs. -/
theorem computePlatformKey_not_six_pairs :
    ¬ ∃ l : List (GoStr × GoStr), l.Nodup ∧ l.length = 6 ∧
        ∀ p : GoStr × GoStr,
          (∃ k, ComputePlatformKey p.1 p.2 = Except.ok k) ↔ p ∈ l := by
  rintro ⟨l, hnd, hlen, hiff⟩
  have hsub : l ⊆ supportedPairs := fun p hp =>
    (computePlatformKey_ok_iff p.1 p.2).1 ((hiff p).2 hp)
  have hle : l.length ≤ supportedPairs.length := (hnd.subperm hsub).length_le
  rw [hlen] at hle
  have h5 : supportedPairs.length = 5 := rfl
  omega

/-- C3: a registry whose entry is authored under the v-prefixed key passes
Validate, yet GetExpectedSHA finds nothing for it under either query
spelling, because the normalized query is matched against the raw key. -/
theorem vAuthoredKey_validates_but_unreachable :
    vAuthoredDB.Validate = none ∧
      vAuthoredDB.Versions.lookup "v2.31.1".toList ≠ none ∧
      GetExpectedSHA (some vAuthoredDB) "2.31.1".toList "linux_amd64".toList
        = ([], false) ∧
      GetExpectedSHA (some vAuthoredDB) "v2.31.1".toList "linux_amd64".toList
        = ([], false) :=
  ⟨by decide, by decide, by decide, by decide⟩

/-- Lookup after removing every binding of another key is unchanged. -/
lemma lookup_filter_ne {β : Type} {k nv : GoStr} (h : k ≠ nv)
    (m : List (GoStr × β)) :
    (m.filter (fun e => e.1 != nv)).lookup k = m.lookup k := by
  induction m with
  | nil => rfl
  | cons e m ih =>
    obtain ⟨a, b⟩ := e
    by_cases hak : a = nv
    · subst hak
      have h1 : (a != a) = false := by simp
      have h2 : (k == a) = false := beq_eq_false_iff_ne.mpr h
      simp [List.filter_cons, h1, List.lookup, h2, ih]
    · have h1 : (a != nv) = true := by simpa using hak
      by_cases hka : k = a
      · subst hka
        simp [List.filter_cons, h1, List.lookup]
      · have h2 : (k == a) = false := beq_eq_false_iff_ne.mpr hka
        simp [List.filter_cons, h1, List.lookup, h2, ih]

/-- Lookup of the just-inserted key. -/
lemma lookup_mapInsert_self {β : Type} (k : GoStr) (v : β)
    (m : List (GoStr × β)) : (mapInsert k v m).lookup k = some v := by
  simp [mapInsert, List.lookup]

/-- Lookup of any other key is unchanged by mapInsert. -/
lemma lookup_mapInsert_ne {β : Type} {k k' : GoStr} (h : k' ≠ k) (v : β)
    (m : List (GoStr × β)) : (mapInsert k v m).lookup k' = m.lookup k' := by
  have h2 : (k' == k) = false := beq_eq_false_iff_ne.mpr h
  simp [mapInsert, List.lookup, h2, lookup_filter_ne h]

/-- C5: ExtendDB is atomic with respect to validation of the single-entry
scratch registry: a validation failure is returned unchanged with no merge,
and a success merges exactly the normalized-version entry, leaving every
other entry and the other fields unchanged. -/
theorem extendDB_atomic (db : VersionsDB) (version : GoStr)
    (cs : PlatformChecksums) :
    (∀ e, (extendScratch db version cs).Validate = some e →
        db.ExtendDB version cs = .error e) ∧
    ((extendScratch db version cs).Validate = none →
      ∃ db', db.ExtendDB version cs = .ok db' ∧
        db'.SchemaVersion = db.SchemaVersion ∧
        db'.GeneratedAt = db.GeneratedAt ∧
        db'.Versions.lookup (NormalizeVersion version) = some cs ∧
        ∀ k, k ≠ NormalizeVersion version →
          db'.Versions.lookup k = db.Versions.lookup k) := by
  constructor
  · intro e he
    simp [VersionsDB.ExtendDB, he]
  · intro he
    refine ⟨{ db with
        Versions := mapInsert (NormalizeVersion version) cs db.Versions },
      by simp [VersionsDB.ExtendDB, he], rfl, rfl,
      lookup_mapInsert_self _ _ _, fun k hk => lookup_mapInsert_ne hk _ _⟩

/-- C5 witness: extending sampleDB with an invalid checksum fails with
exactly that aggregate error, and extending with a valid entry under the
v-spelling merges it under the normalized key and keeps the old entry. -/
theorem extendDB_atomic_witness :
    sampleDB.ExtendDB "3.0.0".toList badCS =
      .error ⟨[invalidChecksumMsg "3.0.0".toList "linux_amd64".toList]⟩ ∧
    ∃ db', sampleDB.ExtendDB "v3.0.0".toList goodCS = .ok db' ∧
      db'.Versions.lookup "3.0.0".toList = some goodCS ∧
      db'.Versions.lookup "1.0.0".toList = sampleDB.Versions.lookup "1.0.0".toList := by
  constructor
  · exact (extendDB_atomic sampleDB "3.0.0".toList badCS).1
      ⟨[invalidChecksumMsg "3.0.0".toList "linux_amd64".toList]⟩ (by decide)
  · obtain ⟨db', h1, _, _, h4, h5⟩ :=
      (extendDB_atomic sampleDB "v3.0.0".toList goodCS).2 (by decide)
    have hnv : NormalizeVersion "v3.0.0".toList = "3.0.0".toList := by decide
    refine ⟨db', h1, ?_, ?_⟩
    · rw [← hnv]; exact h4
    · exact h5 "1.0.0".toList (by decide)

/-- C10: GetExpectedSHA is total and returns the not-found result ("",
false) on a nil registry, on an absent version, on an unrecognized platform
key, and on a present entry whose field for the key is empty. -/
theorem getExpectedSHA_total :
    (∀ version pk, GetExpectedSHA none version pk = ([], false)) ∧
    (∀ db version pk,
        db.Versions.lookup (NormalizeVersion version) = none →
        GetExpectedSHA (some db) version pk = ([], false)) ∧
    (∀ db version pk, pk ∉ platformKeys →
        GetExpectedSHA (some db) version pk = ([], false)) ∧
    (∀ db version pk pcs val,
        db.Versions.lookup (NormalizeVersion version) = some pcs →
        (pk, val) ∈ checkPairs pcs → val = [] →
        GetExpectedSHA (some db) version pk = ([], false)) := by
  refine ⟨fun version pk => rfl, ?_, ?_, ?_⟩
  · intro db version pk h
    simp [GetExpectedSHA, h]
  · intro db version pk h
    simp only [platformKeys, List.mem_cons, List.not_mem_nil, or_false,
      not_or] at h
    obtain ⟨n1, n2, n3, n4, n5⟩ := h
    cases hlk : db.Versions.lookup (NormalizeVersion version) with
    | none => simp [GetExpectedSHA, hlk]
    | some pcs =>
        simp only [GetExpectedSHA, hlk]
        rw [if_neg n1, if_neg n2, if_neg n3, if_neg n4, if_neg n5]
  · intro db version pk pcs val hlk hp hval
    subst hval
    simp only [checkPairs, List.mem_cons, List.not_mem_nil, or_false,
      Prod.mk.injEq] at hp
    rcases hp with ⟨rfl, hv⟩ | ⟨rfl, hv⟩ | ⟨rfl, hv⟩ | ⟨rfl, hv⟩ | ⟨rfl, hv⟩ <;>
      simp [GetExpectedSHA, hlk, ← hv]

/-- C10 witness: the four not-found cases evaluated concretely. -/
theorem getExpectedSHA_total_witness :
    GetExpectedSHA none "2.31.1".toList "linux_amd64".toList = ([], false) ∧
    GetExpectedSHA (some sampleDB) "9.9.9".toList "linux_amd64".toList
      = ([], false) ∧
    GetExpectedSHA (some sampleDB) "1.0.0".toList "zzz".toList = ([], false) ∧
    GetExpectedSHA (some sampleDB) "1.0.0".toList "linux_arm64".toList
      = ([], false) := by
  obtain ⟨h1, h2, h3, h4⟩ := getExpectedSHA_total
  exact ⟨h1 _ _, h2 sampleDB _ _ (by decide), h3 sampleDB _ _ (by decide),
    h4 sampleDB _ _ { LinuxAMD64 := bundledLinuxAMD64 } [] (by decide)
      (by decide) rfl⟩

/-- C6: when the default-path file exists, bootstrap performs no write and
succeeds, and a second bootstrap call after any successful one returns the
filesystem unchanged (the on-disk bytes stay those of the first call). -/
theorem writeBundledDB_idempotent (env : Env) (t t2 : GoStr) (fs : FS) :
    (∀ path c, DefaultDBPath env = .ok path → fs.lookup path = some c →
        WriteBundledDBIfMissing env t fs = .ok fs) ∧
    (∀ fs', WriteBundledDBIfMissing env t fs = .ok fs' →
        WriteBundledDBIfMissing env t2 fs' = .ok fs') := by
  constructor
  · intro path c hpath hlook
    simp [WriteBundledDBIfMissing, hpath, hlook]
  · intro fs' h
    cases hp : DefaultDBPath env with
    | error e => simp [WriteBundledDBIfMissing, hp] at h
    | ok path =>
      simp only [WriteBundledDBIfMissing, hp] at h ⊢
      cases hl : fs.lookup path with
      | some c =>
        simp only [hl] at h
        cases h
        simp [hl]
      | none =>
        simp only [hl] at h
        cases hv : (bundledDB t).Validate with
        | some e => simp [hv] at h
        | none =>
          simp only [hv] at h
          cases h
          simp [FS.lookup, FS.write, mapInsert, List.lookup]

/-- C6 witness: with the file present bootstrap returns the filesystem
unchanged, and a repeat call after a fresh bootstrap is a no-op even with a
different process timestamp. -/
theorem writeBundledDB_idempotent_witness :
    WriteBundledDBIfMissing env0 ts1 fs1 = .ok fs1 ∧
    WriteBundledDBIfMissing env0 ts2 fs1 = .ok fs1 :=
  ⟨(writeBundledDB_idempotent env0 ts1 ts1 fs1).1 path0
      (bundledVersionsYAML ts1) rfl rfl,
   (writeBundledDB_idempotent env0 ts1 ts2 fsEmpty).2 fs1 rfl⟩

/-- Case analysis on a successful bootstrap: either the fast path returned
the filesystem unchanged, or the validated bundled content was written at
the resolved default path. -/
lemma writeBundled_ok_cases (env : Env) (t : GoStr) (fs fs' : FS)
    (h : WriteBundledDBIfMissing env t fs = .ok fs') :
    fs' = fs ∨ ∃ path, DefaultDBPath env = .ok path ∧ fs.lookup path = none ∧
      (bundledDB t).Validate = none ∧
      fs' = fs.write path (bundledVersionsYAML t) := by
  cases hp : DefaultDBPath env with
  | error e => simp [WriteBundledDBIfMissing, hp] at h
  | ok path =>
    simp only [WriteBundledDBIfMissing, hp] at h
    cases hl : fs.lookup path with
    | some c =>
      simp only [hl] at h
      cases h
      exact Or.inl rfl
    | none =>
      simp only [hl] at h
      cases hv : (bundledDB t).Validate with
      | some e => simp [hv] at h
      | none =>
        simp only [hv] at h
        cases h
        exact Or.inr ⟨path, rfl, hl, hv, rfl⟩

/-- C7: a successful bootstrap either wrote nothing, or wrote the bundled
document at the resolved default path after it passed the full Validator. -/
theorem bootstrap_validates_before_write (env : Env) (t : GoStr) (fs fs' : FS)
    (h : WriteBundledDBIfMissing env t fs = .ok fs') :
    fs' = fs ∨ ∃ path, DefaultDBPath env = .ok path ∧ fs.lookup path = none ∧
      (bundledDB t).Validate = none ∧
      fs' = fs.write path (bundledVersionsYAML t) :=
  writeBundled_ok_cases env t fs fs' h

/-- C7 witness: the fresh bootstrap on the empty filesystem wrote validated
content. -/
theorem bootstrap_validates_before_write_witness :
    fs1 = fsEmpty ∨ ∃ path, DefaultDBPath env0 = .ok path ∧
      fsEmpty.lookup path = none ∧ (bundledDB ts1).Validate = none ∧
      fs1 = fsEmpty.write path (bundledVersionsYAML ts1) :=
  bootstrap_validates_before_write env0 ts1 fsEmpty fs1 rfl

/-- C8 as stated is false: two bootstrap invocations from processes
initialised one second apart both perform a write, and the two written
byte strings differ (in the generated_at field). -/
theorem bundled_write_not_byte_identical :
    WriteBundledDBIfMissing env0 ts1 fsEmpty = .ok fs1 ∧
    WriteBundledDBIfMissing env0 ts2 fsEmpty =
      .ok (fsEmpty.write path0 (bundledVersionsYAML ts2)) ∧
    bundledVersionsYAML ts1 ≠ bundledVersionsYAML ts2 :=
  ⟨rfl, rfl, by decide⟩

/-- C8 (amended): within one process the written content is the single
value bundledVersionsYAML t, so any two invocations that perform a write
with the same process timestamp produce byte-identical content. -/
theorem bundled_write_content_deterministic (env : Env) (t : GoStr)
    (fs fs' : FS) (h : WriteBundledDBIfMissing env t fs = .ok fs')
    (hne : fs' ≠ fs) :
    ∃ path, DefaultDBPath env = .ok path ∧
      fs' = fs.write path (bundledVersionsYAML t) := by
  rcases writeBundled_ok_cases env t fs fs' h with heq | ⟨p, h1, _, _, h4⟩
  · exact absurd heq hne
  · exact ⟨p, h1, h4⟩

/-- C8 amended witness: the fresh bootstrap write is the deterministic
bundled content. -/
theorem bundled_write_content_deterministic_witness :
    ∃ path, DefaultDBPath env0 = .ok path ∧
      fs1 = fsEmpty.write path (bundledVersionsYAML ts1) :=
  bundled_write_content_deterministic env0 ts1 fsEmpty fs1 rfl (by decide)

/-- C9 (amended): read and parse failures of the Loader are wrapped errors
whose message contains the path; a validation failure is returned as the
aggregate ValidationError itself, whose message does not mention the path;
no registry value accompanies any failure. -/
theorem loadDBFromPath_error_wrapping
    (unmarshal : GoStr → Except GoStr VersionsDB) (fs : FS) (path : GoStr) :
    (fs.lookup path = none →
      loadDBFromPath unmarshal fs path = .error (readErrMsg path) ∧
        path <:+: readErrMsg path) ∧
    (∀ content cause, fs.lookup path = some content →
        unmarshal content = .error cause →
        loadDBFromPath unmarshal fs path = .error (parseErrMsg path cause) ∧
          path <:+: parseErrMsg path cause) ∧
    (∀ content db e, fs.lookup path = some content →
        unmarshal content = .ok db → db.Validate = some e →
        loadDBFromPath unmarshal fs path = .error e.message) := by
  refine ⟨fun h => ⟨by simp [loadDBFromPath, h], ?_⟩,
    fun content cause h1 h2 => ⟨by simp [loadDBFromPath, h1, h2], ?_⟩,
    fun content db e h1 h2 h3 => by simp [loadDBFromPath, h1, h2, h3]⟩
  · refine ⟨"failed to read versions DB at ".toList,
      ": ".toList ++ readFileErrCause path, ?_⟩
    simp [readErrMsg, List.append_assoc]
  · refine ⟨"failed to parse YAML versions DB at ".toList,
      ": ".toList ++ cause, ?_⟩
    simp [parseErrMsg, List.append_assoc]

/-- C9 witness: the wrapped read and parse failures at a concrete path, and
the unwrapped validation failure. -/
theorem loadDBFromPath_error_wrapping_witness :
    (loadDBFromPath unmarshalSample fsEmpty pathSample =
        .error (readErrMsg pathSample) ∧
      pathSample <:+: readErrMsg pathSample) ∧
    (loadDBFromPath unmarshalFailSample fsSample pathSample =
        .error (parseErrMsg pathSample "yaml: unmarshal errors".toList) ∧
      pathSample <:+: parseErrMsg pathSample "yaml: unmarshal errors".toList) ∧
    loadDBFromPath unmarshalSample fsSample pathSample =
      .error (ValidationError.mk (validateErrs badSchemaDB)).message :=
  ⟨(loadDBFromPath_error_wrapping unmarshalSample fsEmpty pathSample).1 rfl,
   (loadDBFromPath_error_wrapping unmarshalFailSample fsSample pathSample).2.1
     "schema_version: 2".toList "yaml: unmarshal errors".toList rfl rfl,
   (loadDBFromPath_error_wrapping unmarshalSample fsSample pathSample).2.2
     "schema_version: 2".toList badSchemaDB
     (ValidationError.mk (validateErrs badSchemaDB)) rfl rfl (by decide)⟩

/-- C9 as stated is false: a validation failure surfaced by the Loader
carries no mention of the path. -/
theorem loadDB_validation_error_lacks_path :
    loadDBFromPath unmarshalSample fsSample pathSample =
      .error validationMsgSample ∧
    ¬ (pathSample <:+: validationMsgSample) :=
  ⟨by decide, by decide⟩

/-- Validate returns nil exactly when no error was accumulated. -/
lemma validate_eq_none_iff (db : VersionsDB) :
    db.Validate = none ↔ validateErrs db = [] := by
  constructor
  · intro h
    by_contra hne
    have hi : (validateErrs db).isEmpty = false := by
      cases he : validateErrs db with
      | nil => exact absurd he hne
      | cons a l => simp
    simp [VersionsDB.Validate, hi] at h
  · intro h
    simp [VersionsDB.Validate, h]

/-- A returned aggregate error carries exactly the accumulated list. -/
lemma validate_eq_some_errors {db : VersionsDB} {e : ValidationError}
    (h : db.Validate = some e) : e.Errors = validateErrs db := by
  unfold VersionsDB.Validate at h
  by_cases hi : (validateErrs db).isEmpty
  · simp [hi] at h
  · simp [hi] at h
    rw [← h]

/-- A wrong schema version contributes its message. -/
lemma schemaMsg_mem {db : VersionsDB} (h : db.SchemaVersion ≠ SchemaVersion) :
    schemaVersionMsg db.SchemaVersion ∈ validateErrs db := by
  unfold validateErrs
  rw [if_pos h]
  exact List.mem_append_left _ (List.mem_singleton_self _)

/-- An empty versions map contributes its message. -/
lemma emptyMsg_mem {db : VersionsDB} (h : db.Versions = []) :
    emptyVersionsMsg ∈ validateErrs db := by
  unfold validateErrs
  refine List.mem_append_right _ ?_
  simp [h]

/-- Every error of an entry of the versions map is among the accumulated
errors. -/
lemma entryErrs_subset {db : VersionsDB} {ver : GoStr}
    {pcs : PlatformChecksums} (h : (ver, pcs) ∈ db.Versions) :
    entryErrs ver pcs ⊆ validateErrs db := by
  intro x hx
  unfold validateErrs
  refine List.mem_append_right _ ?_
  have hne : db.Versions.isEmpty = false := by
    cases hv : db.Versions with
    | nil => rw [hv] at h; simp at h
    | cons a l => simp
  simp only [hne, Bool.false_eq_true, if_false]
  exact List.mem_flatten.mpr
    ⟨entryErrs ver pcs, List.mem_map.mpr ⟨(ver, pcs), h, rfl⟩, hx⟩

/-- A malformed version key contributes its message to the entry errors. -/
lemma invalidKeyMsg_mem_entry {ver : GoStr} {pcs : PlatformChecksums}
    (h : semverLike (NormalizeVersion ver) = false) :
    invalidKeyMsg ver ∈ entryErrs ver pcs := by
  unfold entryErrs
  rw [if_neg (by simp [h])]
  exact List.mem_append_left _ (List.mem_append_left _ (List.mem_singleton_self _))

/-- A populated malformed checksum contributes its message to the entry
errors. -/
lemma invalidChecksumMsg_mem_entry {ver nm val : GoStr}
    {pcs : PlatformChecksums} (hp : (nm, val) ∈ checkPairs pcs)
    (h1 : (goTrimSpace val).isEmpty = false) (h2 : hexSHA256 val = false) :
    invalidChecksumMsg ver nm ∈ entryErrs ver pcs := by
  unfold entryErrs
  refine List.mem_append_left _ (List.mem_append_right _ ?_)
  exact List.mem_map.mpr
    ⟨(nm, val), List.mem_filter.mpr ⟨hp, by simp [h1, h2]⟩, rfl⟩

/-- An entry with no populated checksum contributes its message to the
entry errors. -/
lemma noChecksumsMsg_mem_entry {ver : GoStr} {pcs : PlatformChecksums}
    (h : ∀ p ∈ checkPairs pcs, (goTrimSpace p.2).isEmpty = true) :
    noChecksumsMsg ver ∈ entryErrs ver pcs := by
  unfold entryErrs
  refine List.mem_append_right _ ?_
  rw [if_pos (List.all_eq_true.mpr h)]
  exact List.mem_singleton_self _

/-- C4: validation is exhaustive, not fail-fast. Every violated invariant
(wrong schema_version, empty map, malformed key, populated malformed
checksum, entry with zero populated checksums) contributes its message to
the one aggregate error, and a nil result certifies that no invariant is
violated. -/
theorem validate_exhaustive (db : VersionsDB) :
    (∀ e, db.Validate = some e →
      (db.SchemaVersion ≠ SchemaVersion →
        schemaVersionMsg db.SchemaVersion ∈ e.Errors) ∧
      (db.Versions = [] → emptyVersionsMsg ∈ e.Errors) ∧
      (∀ ver pcs, (ver, pcs) ∈ db.Versions →
        semverLike (NormalizeVersion ver) = false →
        invalidKeyMsg ver ∈ e.Errors) ∧
      (∀ ver pcs nm val, (ver, pcs) ∈ db.Versions →
        (nm, val) ∈ checkPairs pcs → (goTrimSpace val).isEmpty = false →
        hexSHA256 val = false → invalidChecksumMsg ver nm ∈ e.Errors) ∧
      (∀ ver pcs, (ver, pcs) ∈ db.Versions →
        (∀ p ∈ checkPairs pcs, (goTrimSpace p.2).isEmpty = true) →
        noChecksumsMsg ver ∈ e.Errors)) ∧
    (db.Validate = none →
      db.SchemaVersion = SchemaVersion ∧ db.Versions ≠ [] ∧
      (∀ ver pcs, (ver, pcs) ∈ db.Versions →
        semverLike (NormalizeVersion ver) = true) ∧
      (∀ ver pcs nm val, (ver, pcs) ∈ db.Versions →
        (nm, val) ∈ checkPairs pcs → (goTrimSpace val).isEmpty = false →
        hexSHA256 val = true) ∧
      (∀ ver pcs, (ver, pcs) ∈ db.Versions →
        ∃ p ∈ checkPairs pcs, (goTrimSpace p.2).isEmpty = false)) := by
  constructor
  · intro e he
    have hE : e.Errors = validateErrs db := validate_eq_some_errors he
    rw [hE]
    exact ⟨fun h => schemaMsg_mem h, fun h => emptyMsg_mem h,
      fun ver pcs hm hk => entryErrs_subset hm (invalidKeyMsg_mem_entry hk),
      fun ver pcs nm val hm hp h1 h2 =>
        entryErrs_subset hm (invalidChecksumMsg_mem_entry hp h1 h2),
      fun ver pcs hm hall => entryErrs_subset hm (noChecksumsMsg_mem_entry hall)⟩
  · intro hn
    have hE : validateErrs db = [] := (validate_eq_none_iff db).1 hn
    refine ⟨?_, ?_, ?_, ?_, ?_⟩
    · by_contra h
      have := schemaMsg_mem h
      simp [hE] at this
    · intro h
      have := emptyMsg_mem h
      simp [hE] at this
    · intro ver pcs hm
      by_contra h
      have h2 : semverLike (NormalizeVersion ver) = false := by simpa using h
      have := entryErrs_subset hm (invalidKeyMsg_mem_entry h2)
      simp [hE] at this
    · intro ver pcs nm val hm hp h1
      by_contra h
      have h2 : hexSHA256 val = false := by simpa using h
      have := entryErrs_subset hm (invalidChecksumMsg_mem_entry hp h1 h2)
      simp [hE] at this
    · intro ver pcs hm
      by_contra h
      push_neg at h
      have hall : ∀ p ∈ checkPairs pcs, (goTrimSpace p.2).isEmpty = true := by
        intro p hp
        simpa using h p hp
      have := entryErrs_subset hm (noChecksumsMsg_mem_entry hall)
      simp [hE] at this

/-- C4 witness: badDB has four independent violations and its aggregate
error lists all four. -/
theorem validate_exhaustive_witness :
    badDB.Validate = some ⟨validateErrs badDB⟩ ∧
    schemaVersionMsg 2 ∈ (ValidationError.mk (validateErrs badDB)).Errors ∧
    invalidKeyMsg "2.31".toList ∈
      (ValidationError.mk (validateErrs badDB)).Errors ∧
    invalidChecksumMsg "2.31".toList "linux_amd64".toList ∈
      (ValidationError.mk (validateErrs badDB)).Errors ∧
    noChecksumsMsg "9.9.9".toList ∈
      (ValidationError.mk (validateErrs badDB)).Errors := by
  have h := (validate_exhaustive badDB).1 ⟨validateErrs badDB⟩ (by decide)
  exact ⟨by decide,
    h.1 (by decide),
    h.2.2.1 "2.31".toList { LinuxAMD64 := "zz".toList } (by decide) (by decide),
    h.2.2.2.1 "2.31".toList { LinuxAMD64 := "zz".toList } "linux_amd64".toList
      "zz".toList (by decide) (by decide) (by decide) (by decide),
    h.2.2.2.2 "9.9.9".toList {} (by decide) (by decide)⟩

end OPAction
